import Mathlib

/-!
Verification of the Dock-Otter reconciliation engine (src/main.go).

The Go source is shallowly embedded: Go structs become Lean structures,
Go `int` becomes `Int`, strings are embedded at the character level
(each `string` is a Lean `String`; Go byte-level operations coincide
with the character-level ones on ASCII data), the in-memory
`processedApps map[string]bool` ledger becomes a `List String` with
membership lookup, and the outbound HTTP calls (Pangolin blueprint POST,
Dokploy project GET) become explicit oracles passed as function
arguments, so every definition is executable.
-/

namespace DockOtter

/-- Embeds the engine-relevant fields of the Go `Config` struct
(src/main.go lines 28-41).  `RetryAttempts` is a Go `int`, hence `Int`;
URL, credential and duration fields are carried by the HTTP clients and
the scheduler, which are external collaborators outside the embedding. -/
structure Config where
  RetryAttempts : Int
  ForceSync : Bool
  deriving Repr, DecidableEq

/-- Embeds the Go `DokployDomain` struct (src/main.go lines 64-71). -/
structure DokployDomain where
  DomainID : String
  Host : String
  Path : String
  Port : Int
  HTTPS : Bool
  Certificate : String
  deriving Repr, DecidableEq

/-- Embeds the Go `DokployApp` struct (src/main.go lines 52-62). -/
structure DokployApp where
  ApplicationID : String
  ComposeID : String
  Name : String
  AppName : String
  Description : String
  Domains : List DokployDomain
  Port : Int
  Status : String
  ProjectID : String
  deriving Repr, DecidableEq

/-- Embeds the Go `DokployProject` struct (src/main.go lines 44-50). -/
structure DokployProject where
  ProjectID : String
  Name : String
  Description : String
  Applications : List DokployApp
  Compose : List DokployApp
  deriving Repr, DecidableEq

/-- Embeds the Go `Target` struct (src/main.go lines 87-93). -/
structure Target where
  Hostname : String
  Port : Int
  Method : String
  Enabled : Bool
  Path : String
  deriving Repr, DecidableEq

/-- Embeds the Go `ProxyResource` struct (src/main.go lines 78-85). -/
structure ProxyResource where
  Name : String
  Protocol : String
  FullDomain : String
  SSL : Bool
  Enabled : Bool
  Targets : List Target
  deriving Repr, DecidableEq

/-- Embeds the Go `PangolinBlueprint` struct (src/main.go lines 74-76). -/
structure PangolinBlueprint where
  ProxyResources : List ProxyResource
  deriving Repr, DecidableEq

/-- Embeds `resolveTargetPort` (src/main.go lines 462-478): domain port
if positive, else application port if positive, else the protocol
default 443/80. -/
def resolveTargetPort (app : DokployApp) (domain : DokployDomain) : Int :=
  if domain.Port > 0 then
    domain.Port
  else if app.Port > 0 then
    app.Port
  else if domain.HTTPS then
    443
  else
    80

/-- Embeds `generateResourceName` (src/main.go lines 567-580):
concatenate `appName ++ "-" ++ domain`, lowercase, replace every `.`
and `_` with `-`, truncate when longer than 63.  Go's
`strings.ToLower`/`ReplaceAll`/`name[:63]` act on the character list
here (identical on ASCII input). -/
def generateResourceName (appName domain : String) : String :=
  let cs0 := (appName ++ "-" ++ domain).toList
  let cs1 := cs0.map Char.toLower
  let cs2 := cs1.map fun c => if c = '.' then '-' else c
  let cs3 := cs2.map fun c => if c = '_' then '-' else c
  let cs4 := if cs3.length > 63 then cs3.take 63 else cs3
  String.mk cs4

/-- Modelled from the spec: §8 "Port resolution: for all (domainPort,
appPort, https) triples, resolved port = domainPort if domainPort>0,
else appPort if appPort>0, else (443 if https else 80)". -/
def resolvedPortSpec (domainPort appPort : Int) (https : Bool) : Int :=
  if domainPort > 0 then domainPort
  else if appPort > 0 then appPort
  else if https then 443 else 80

/-- Modelled from the spec: §4.2 naming rule, "concatenate
`applicationName + "-" + domainHost`, lowercase the full string,
replace every `.` and `_` with `-`, then truncate to the first 63
characters if longer". -/
def deriveNameSpec (applicationName domainHost : String) : String :=
  let lowered := (applicationName ++ "-" ++ domainHost).toList.map fun c =>
    let lc := Char.toLower c
    if lc = '.' ∨ lc = '_' then '-' else lc
  String.mk (lowered.take 63)

/-- Renders the error message of `createBlueprintWithRetry`
(src/main.go line 535): `fmt.Errorf("all %d attempts failed, last
error: %w", RetryAttempts, lastErr)`.  A `none` last error renders as
Go's `%w` verb does on a nil error. -/
def allAttemptsFailedMsg (retryAttempts : Int) (lastErr : Option String) : String :=
  "all " ++ toString retryAttempts ++ " attempts failed, last error: " ++
    (match lastErr with
     | some e => e
     | none => "%!w(<nil>)")

/-- Embeds the loop body of `createBlueprintWithRetry` (src/main.go
lines 516-536).  `publish i` is the outcome of the i-th
`createBlueprint` call (`none` = success, `some e` = failure with
message `e`); the returned `Nat` counts how many times `publish` was
invoked.  The inter-attempt `time.Sleep` has no observable effect in
the embedding. -/
def retryFrom (publish : Int → Option String) (total attempt : Int)
    (lastErr : Option String) : Nat → Option String × Nat
  | 0 => (some (allAttemptsFailedMsg total lastErr), 0)
  | remaining + 1 =>
    match publish attempt with
    | none => (none, 1)
    | some e =>
      let r := retryFrom publish total (attempt + 1) (some e) remaining
      (r.1, r.2 + 1)

/-- Embeds `createBlueprintWithRetry` (src/main.go lines 516-536): run
the attempt loop from attempt 1 with no previous error.  The loop
condition `attempt <= RetryAttempts` starting at 1 gives exactly
`max RetryAttempts 0` possible iterations, which the structural fuel
`retryAttempts.toNat` counts down while `attempt` counts up. -/
def createBlueprintWithRetry (retryAttempts : Int)
    (publish : Int → Option String) : Option String × Nat :=
  retryFrom publish retryAttempts 1 none retryAttempts.toNat

/-- Adds a resource name to the idempotency ledger, embedding
`d.processedApps[resourceName] = true` (src/main.go line 456). -/
def markPublished (resourceName : String) (ledger : List String) : List String :=
  resourceName :: ledger

/-- The idempotency gate of `processAppDomain` (src/main.go lines
391-394): publication is allowed unless force sync is off and the
resource name is already in the ledger. -/
def shouldPublish (forceSync : Bool) (ledger : List String)
    (resourceName : String) : Bool :=
  if forceSync = false ∧ resourceName ∈ ledger then false else true

/-- Embeds `processAppDomain` (src/main.go lines 388-459).  `publish`
is the Pangolin POST oracle: for a given blueprint it yields each
attempt's `createBlueprint` outcome.  Returns (error, new ledger,
whether a successful publish happened). -/
def processAppDomain (cfg : Config) (ledger : List String)
    (publish : PangolinBlueprint → Int → Option String)
    (app : DokployApp) (domain : DokployDomain) :
    Option String × List String × Bool :=
  let resourceName := generateResourceName app.Name domain.Host
  if cfg.ForceSync = false ∧ resourceName ∈ ledger then
    (none, ledger, false)
  else if domain.Host = "" then
    (some "domain host is empty", ledger, false)
  else
    let targetPort := resolveTargetPort app domain
    if targetPort = 0 then
      (some ("no port available for app " ++ app.Name ++ " domain " ++ domain.Host),
        ledger, false)
    else
      let targetMethod := if domain.HTTPS then "https" else "http"
      let targetHostname := app.AppName
      let targetPath := if domain.Path ≠ "" ∧ domain.Path ≠ "/" then domain.Path else "/"
      let blueprint : PangolinBlueprint :=
        { ProxyResources := [
            { Name := resourceName
              Protocol := "http"
              FullDomain := domain.Host
              SSL := domain.HTTPS
              Enabled := true
              Targets := [
                { Hostname := targetHostname
                  Port := targetPort
                  Method := targetMethod
                  Enabled := true
                  Path := targetPath }] }] }
      match (createBlueprintWithRetry cfg.RetryAttempts (publish blueprint)).1 with
      | some e => (some ("failed to create blueprint: " ++ e), ledger, false)
      | none => (none, markPublished resourceName ledger, true)

/-- Copy of `processAppDomain` with the `targetPort == 0` guard
(src/main.go lines 403-405) removed; used to state that the guard is
dead code. -/
def processAppDomainNoPortCheck (cfg : Config) (ledger : List String)
    (publish : PangolinBlueprint → Int → Option String)
    (app : DokployApp) (domain : DokployDomain) :
    Option String × List String × Bool :=
  let resourceName := generateResourceName app.Name domain.Host
  if cfg.ForceSync = false ∧ resourceName ∈ ledger then
    (none, ledger, false)
  else if domain.Host = "" then
    (some "domain host is empty", ledger, false)
  else
    let targetPort := resolveTargetPort app domain
    let targetMethod := if domain.HTTPS then "https" else "http"
    let targetHostname := app.AppName
    let targetPath := if domain.Path ≠ "" ∧ domain.Path ≠ "/" then domain.Path else "/"
    let blueprint : PangolinBlueprint :=
      { ProxyResources := [
          { Name := resourceName
            Protocol := "http"
            FullDomain := domain.Host
            SSL := domain.HTTPS
            Enabled := true
            Targets := [
              { Hostname := targetHostname
                Port := targetPort
                Method := targetMethod
                Enabled := true
                Path := targetPath }] }] }
    match (createBlueprintWithRetry cfg.RetryAttempts (publish blueprint)).1 with
    | some e => (some ("failed to create blueprint: " ++ e), ledger, false)
    | none => (none, markPublished resourceName ledger, true)

/-- The three counters reported at the end of a sync pass
(src/main.go lines 319-321 and 381-384). -/
structure SyncCounts where
  processed : Nat
  skipped : Nat
  errors : Nat
  deriving Repr, DecidableEq

/-- Embeds the inner domain loop of `syncApps` (src/main.go lines
340-350 and 367-377): process each domain of one app in order,
threading the ledger; a failed binding increments `errors`, a
successful one `processed`.  Returns (processed, errors, new ledger). -/
def processDomainList (cfg : Config)
    (publish : PangolinBlueprint → Int → Option String)
    (app : DokployApp) : List DokployDomain → List String →
    Nat × Nat × List String
  | [], ledger => (0, 0, ledger)
  | domain :: rest, ledger =>
    let r := processAppDomain cfg ledger publish app domain
    let t := processDomainList cfg publish app rest r.2.1
    match r.1 with
    | some _ => (t.1, t.2.1 + 1, t.2.2)
    | none => (t.1 + 1, t.2.1, t.2.2)

/-- Embeds one entry-group loop of `syncApps` (src/main.go lines
327-351; the compose loop 354-378 is textually identical): an app
whose status is not "done" or that has no domains is skipped,
otherwise its domains are processed.  Returns the counts and the new
ledger. -/
def processAppList (cfg : Config)
    (publish : PangolinBlueprint → Int → Option String) :
    List DokployApp → List String → SyncCounts × List String
  | [], ledger => (⟨0, 0, 0⟩, ledger)
  | app :: rest, ledger =>
    if app.Status ≠ "done" then
      let t := processAppList cfg publish rest ledger
      (⟨t.1.processed, t.1.skipped + 1, t.1.errors⟩, t.2)
    else if app.Domains = [] then
      let t := processAppList cfg publish rest ledger
      (⟨t.1.processed, t.1.skipped + 1, t.1.errors⟩, t.2)
    else
      let d := processDomainList cfg publish app app.Domains ledger
      let t := processAppList cfg publish rest d.2.2
      (⟨t.1.processed + d.1, t.1.skipped, t.1.errors + d.2.1⟩, t.2)

/-- Embeds the project loop of `syncApps` (src/main.go lines 323-379):
per project, the standalone applications are processed first, then the
compose applications, threading the ledger throughout. -/
def processProjectList (cfg : Config)
    (publish : PangolinBlueprint → Int → Option String) :
    List DokployProject → List String → SyncCounts × List String
  | [], ledger => (⟨0, 0, 0⟩, ledger)
  | project :: rest, ledger =>
    let a := processAppList cfg publish project.Applications ledger
    let c := processAppList cfg publish project.Compose a.2
    let t := processProjectList cfg publish rest c.2
    (⟨a.1.processed + c.1.processed + t.1.processed,
      a.1.skipped + c.1.skipped + t.1.skipped,
      a.1.errors + c.1.errors + t.1.errors⟩, t.2)

/-- Embeds `syncApps` (src/main.go lines 311-386).  `fetchResult` is
the outcome of `getDokployProjects`; on fetch failure the pass aborts
with a wrapped error and the ledger is untouched, otherwise every
project is processed and the three counters are reported. -/
def syncApps (cfg : Config) (ledger : List String)
    (publish : PangolinBlueprint → Int → Option String)
    (fetchResult : Except String (List DokployProject)) :
    Except String SyncCounts × List String :=
  match fetchResult with
  | .error e => (.error ("failed to get projects: " ++ e), ledger)
  | .ok projects =>
    let t := processProjectList cfg publish projects ledger
    (.ok t.1, t.2)

/-- What one Dokploy endpoint probe observes (src/main.go lines
491-505): either a transport error from the GET, or an HTTP response
with its status code together with the outcome of decoding its body as
`[]DokployProject` (the decode outcome is consulted only on status
200, as in the source). -/
inductive EndpointResult where
  | transportError (e : String)
  | httpResponse (status : Int) (decoded : Except String (List DokployProject))
  deriving Repr

/-- The fixed, ordered candidate endpoint list of `getDokployProjects`
(src/main.go lines 482-487). -/
def endpoints : List String :=
  ["/api/projects", "/api/project/all", "/api/project", "/api/applications"]

/-- Renders `lastErr` as the `%w` verb of the final wrap at
src/main.go line 513 does. -/
def lastErrString : Option String → String
  | some e => e
  | none => "%!w(<nil>)"

/-- Embeds the candidate loop of `getDokployProjects` (src/main.go
lines 489-513).  `fetch ep` is the observed outcome of `GET url ++ ep`.
Also returns the list of endpoints actually attempted, in order.  On a
transport error the error itself is recorded; on a non-200 status the
formatted status message (line 510); on a 200 whose body fails to
decode, the decode error; the first decodable 200 returns immediately. -/
def tryEndpoints (fetch : String → EndpointResult) :
    List String → Option String →
    Except String (List DokployProject) × List String
  | [], lastErr =>
    (.error ("all endpoints failed, last error: " ++ lastErrString lastErr), [])
  | ep :: rest, _lastErr =>
    match fetch ep with
    | .transportError e =>
      let t := tryEndpoints fetch rest (some e)
      (t.1, ep :: t.2)
    | .httpResponse status decoded =>
      if status = 200 then
        match decoded with
        | .ok projects => (.ok projects, [ep])
        | .error e =>
          let t := tryEndpoints fetch rest (some e)
          (t.1, ep :: t.2)
      else
        let t := tryEndpoints fetch rest
          (some ("endpoint " ++ ep ++ " returned status " ++ toString status))
        (t.1, ep :: t.2)

/-- Embeds `getDokployProjects` (src/main.go lines 480-514): probe the
fixed candidate list in order starting with no recorded error. -/
def getDokployProjects (fetch : String → EndpointResult) :
    Except String (List DokployProject) × List String :=
  tryEndpoints fetch endpoints none

/-- Whether an endpoint probe outcome fails in the sense of the
candidate loop: transport error, non-200 status, or undecodable 200
body. -/
def epFails : EndpointResult → Bool
  | .transportError _ => true
  | .httpResponse status decoded =>
    if status = 200 then
      match decoded with
      | .ok _ => false
      | .error _ => true
    else true

/-- The error message the candidate loop records for a failing probe of
`ep` (src/main.go lines 495-497, 503-505, 510). -/
def epFailMsg (ep : String) : EndpointResult → String
  | .transportError e => e
  | .httpResponse status decoded =>
    if status = 200 then
      match decoded with
      | .ok _ => ""
      | .error e => e
    else "endpoint " ++ ep ++ " returned status " ++ toString status

/-- One reconciliation step of a process trace: the (app, domain) pair
handed to `processAppDomain` together with that call's publish oracle. -/
structure TraceStep where
  app : DokployApp
  domain : DokployDomain
  publish : PangolinBlueprint → Int → Option String

/-- Runs a sequence of `processAppDomain` calls against an evolving
ledger, as repeated reconciliation passes do within one process
lifetime, and collects the resource names of the successful publishes
in order, together with the final ledger. -/
def runSteps (cfg : Config) : List TraceStep → List String →
    List String × List String
  | [], ledger => ([], ledger)
  | step :: rest, ledger =>
    let r := processAppDomain cfg ledger step.publish step.app step.domain
    let t := runSteps cfg rest r.2.1
    (if r.2.2 then generateResourceName step.app.Name step.domain.Host :: t.1
     else t.1, t.2)

/-- A configuration with the default retry count (`RETRY_ATTEMPTS` = 3,
src/main.go line 592) and force sync off, for concrete evaluations. -/
def cfg0 : Config := { RetryAttempts := 3, ForceSync := false }

/-- A publish oracle whose every attempt succeeds. -/
def pubOk : PangolinBlueprint → Int → Option String := fun _ _ => none

/-- A publish oracle whose every attempt fails with "boom". -/
def pubBoom : PangolinBlueprint → Int → Option String := fun _ _ => some "boom"

/-- A TLS domain binding on host `h` with no domain-level port. -/
def mkDomain (h : String) : DokployDomain :=
  { DomainID := "d", Host := h, Path := "/", Port := 0, HTTPS := true,
    Certificate := "" }

/-- A running application with one empty-host binding and two valid
bindings. -/
def appThree : DokployApp :=
  { ApplicationID := "id", ComposeID := "", Name := "web", AppName := "web-svc",
    Description := "", Domains := [mkDomain "", mkDomain "a.example.com",
      mkDomain "b.example.com"],
    Port := 3000, Status := "done", ProjectID := "p" }

/-- A project holding `appThree` as its only standalone application. -/
def projThree : DokployProject :=
  { ProjectID := "p", Name := "proj", Description := "",
    Applications := [appThree], Compose := [] }

/-- A running application with a single valid binding. -/
def appOne : DokployApp :=
  { ApplicationID := "id", ComposeID := "", Name := "web", AppName := "web-svc",
    Description := "", Domains := [mkDomain "a.example.com"],
    Port := 3000, Status := "done", ProjectID := "p" }

/-- A project holding `appOne` as its only standalone application. -/
def projOne : DokployProject :=
  { ProjectID := "p", Name := "proj", Description := "",
    Applications := [appOne], Compose := [] }

/-- The empty-host binding. -/
def domEmpty : DokployDomain := mkDomain ""

/-- A running application named `"a."` whose only binding has an empty
host; its derived resource name is `"a--"`, which collides with the
name derived from application `"a"` and host `"-"`. -/
def appDot : DokployApp :=
  { ApplicationID := "id", ComposeID := "", Name := "a.", AppName := "a-svc",
    Description := "", Domains := [domEmpty],
    Port := 3000, Status := "done", ProjectID := "p" }

/-- One reconciliation step over `appOne`'s binding. -/
def stepOne : TraceStep := ⟨appOne, mkDomain "a.example.com", pubOk⟩

/-- A fetch oracle whose first candidate returns status 500, whose
second returns a decodable 200 with an empty project list, and whose
remaining candidates would fail in transport if ever probed. -/
def fetchFallback : String → EndpointResult := fun ep =>
  if ep = "/api/projects" then .httpResponse 500 (.error "nope")
  else if ep = "/api/project/all" then .httpResponse 200 (.ok [])
  else .transportError "unreachable"

/-- The fold of recorded candidate-failure messages of the endpoint
loop (src/main.go lines 489-511): the message the final wrap at line
513 will see after probing the whole list. -/
def lastFailureMsg (fetch : String → EndpointResult) :
    List String → Option String → String
  | [], lastErr => lastErrString lastErr
  | ep :: rest, _ => lastFailureMsg fetch rest (some (epFailMsg ep (fetch ep)))

theorem stringMkTrunc_le (l : List Char) :
    (String.mk (if l.length > 63 then l.take 63 else l)).length ≤ 63 := by
  by_cases h : l.length > 63
  · rw [if_pos h]
    show (l.take 63).length ≤ 63
    rw [List.length_take]
    omega
  · rw [if_neg h]
    show l.length ≤ 63
    omega

theorem generateResourceName_eq_spec (a d : String) :
    generateResourceName a d = deriveNameSpec a d := by
  unfold generateResourceName deriveNameSpec
  simp only [List.map_map]
  have hfun :
      ((fun c => if c = '_' then '-' else c) ∘ (fun c => if c = '.' then '-' else c) ∘
        Char.toLower) =
      (fun c =>
        let lc := Char.toLower c
        if lc = '.' ∨ lc = '_' then '-' else lc) := by
    funext c
    by_cases h1 : Char.toLower c = '.'
    · simp [Function.comp, h1]
    · by_cases h2 : Char.toLower c = '_'
      · simp [Function.comp, h1, h2]
      · simp [Function.comp, h1, h2]
  rw [hfun]
  set m := (a ++ "-" ++ d).toList.map
    (fun c =>
      let lc := Char.toLower c
      if lc = '.' ∨ lc = '_' then '-' else lc) with hm
  by_cases hl : m.length > 63
  · rw [if_pos hl]
  · rw [if_neg hl, List.take_of_length_le (by omega)]

theorem resolveTargetPort_pos (app : DokployApp) (domain : DokployDomain) :
    0 < resolveTargetPort app domain := by
  unfold resolveTargetPort
  split
  · omega
  · split
    · omega
    · split <;> omega

/-- C1: the resolved forwarding port equals the domain-level port when
positive, else the application-level port when positive, else the
protocol default 443 (TLS) or 80; in particular the triple
(0, 0, https) resolves to 443. -/
theorem claim_C1 :
    (∀ (app : DokployApp) (domain : DokployDomain),
      resolveTargetPort app domain =
        resolvedPortSpec domain.Port app.Port domain.HTTPS) ∧
    resolvedPortSpec 0 0 true = 443 :=
  ⟨fun _ _ => rfl, rfl⟩

/-- C2: the derived resource name is the lowercased concatenation
`applicationName ++ "-" ++ domainHost` with `.` and `_` replaced by
`-`, truncated to 63 characters; `("MyApp", "Example.COM")` derives
exactly `"myapp-example-com"` and no derived name exceeds 63
characters. -/
theorem claim_C2 :
    generateResourceName "MyApp" "Example.COM" = "myapp-example-com" ∧
    (∀ a d, generateResourceName a d = deriveNameSpec a d) ∧
    (∀ a d, (generateResourceName a d).length ≤ 63) := by
  refine ⟨by decide, generateResourceName_eq_spec, ?_⟩
  intro a d
  exact stringMkTrunc_le _

/-- C7: port resolution always yields a positive integer, so the
`targetPort == 0` guard in `processAppDomain` is dead code: the
function is extensionally equal to its copy with the guard removed. -/
theorem claim_C7 :
    (∀ (app : DokployApp) (domain : DokployDomain),
      0 < resolveTargetPort app domain) ∧
    (∀ cfg ledger publish app domain,
      processAppDomain cfg ledger publish app domain =
        processAppDomainNoPortCheck cfg ledger publish app domain) := by
  refine ⟨resolveTargetPort_pos, ?_⟩
  intro cfg ledger publish app domain
  have hp : ¬ (resolveTargetPort app domain = 0) := by
    have := resolveTargetPort_pos app domain
    omega
  unfold processAppDomain processAppDomainNoPortCheck
  simp only [hp, if_false, ite_false]

/-- C8: when the inventory fetch fails, the pass aborts with the
wrapped fetch error, no project is filtered or processed, and the
idempotency ledger is returned unchanged, whatever the publish oracle. -/
theorem claim_C8 :
    ∀ cfg ledger publish e,
      syncApps cfg ledger publish (.error e) =
        (.error ("failed to get projects: " ++ e), ledger) :=
  fun _ _ _ _ => rfl

/-- C9: a pass over a fresh ledger whose inventory holds one
empty-host binding and two valid bindings reports processed = 2,
skipped = 0, errored = 1; moreover a pass whose fetch succeeded never
aborts, whatever happens to the individual bindings. -/
theorem claim_C9 :
    syncApps cfg0 [] pubOk (.ok [projThree]) =
      (.ok ⟨2, 0, 1⟩, ["web-b-example-com", "web-a-example-com"]) ∧
    (∀ cfg ledger publish projects, ∃ c l,
      syncApps cfg ledger publish (.ok projects) = (.ok c, l)) := by
  refine ⟨by rfl, ?_⟩
  intro cfg ledger publish projects
  exact ⟨_, _, rfl⟩

theorem retryFrom_allFail (publish : Int → Option String) (errf : Int → String)
    (hp : ∀ i, publish i = some (errf i)) (total : Int) :
    ∀ (r : Nat) (attempt : Int) (lastErr : Option String),
      attempt + (r : Int) = total + 1 → 1 ≤ r →
      retryFrom publish total attempt lastErr r =
        (some (allAttemptsFailedMsg total (some (errf total))), r) := by
  intro r
  induction r with
  | zero => omega
  | succ k ih =>
    intro attempt lastErr hsum _
    unfold retryFrom
    rw [hp attempt]
    dsimp only
    cases k with
    | zero =>
      have ha : attempt = total := by push_cast at hsum; omega
      subst ha
      rfl
    | succ m =>
      rw [ih (attempt + 1) (some (errf attempt)) (by push_cast at hsum ⊢; omega)
        (by omega)]

/-- C4: with `retryAttempts` = N ≥ 1 and a publisher that fails every
attempt, `createBlueprintWithRetry` invokes the publisher exactly N
times and returns an error whose message is a function of N and the
Nth attempt's cause alone; a pass over one otherwise-valid binding
with such a publisher counts the binding as errored. -/
theorem claim_C4 :
    (∀ (n : Int) (publish : Int → Option String) (errf : Int → String),
      1 ≤ n → (∀ i, publish i = some (errf i)) →
      createBlueprintWithRetry n publish =
        (some (allAttemptsFailedMsg n (some (errf n))), n.toNat)) ∧
    syncApps cfg0 [] pubBoom (.ok [projOne]) = (.ok ⟨0, 0, 1⟩, []) := by
  constructor
  · intro n publish errf hn hp
    unfold createBlueprintWithRetry
    exact retryFrom_allFail publish errf hp n n.toNat 1 none (by omega) (by omega)
  · rfl

/-- Witness for C4 at N = 3 and the constant failure "boom". -/
theorem claim_C4_witness :
    createBlueprintWithRetry 3 (fun _ => some "boom") =
      (some (allAttemptsFailedMsg 3 (some "boom")), 3) :=
  claim_C4.1 3 (fun _ => some "boom") (fun _ => "boom") (by decide) (fun _ => rfl)

theorem tryEndpoints_firstSuccess (fetch : String → EndpointResult)
    (projects : List DokployProject) :
    ∀ (pre : List String) (ep : String) (post : List String)
      (lastErr : Option String),
      (∀ e ∈ pre, epFails (fetch e) = true) →
      fetch ep = .httpResponse 200 (.ok projects) →
      tryEndpoints fetch (pre ++ ep :: post) lastErr =
        (.ok projects, pre ++ [ep]) := by
  intro pre
  induction pre with
  | nil =>
    intro ep post lastErr _ hep
    simp [tryEndpoints, hep]
  | cons e es ih =>
    intro ep post lastErr hfail hep
    have hev : epFails (fetch e) = true := hfail e (List.mem_cons_self e _)
    have htail : ∀ x ∈ es, epFails (fetch x) = true :=
      fun x hx => hfail x (List.mem_cons_of_mem _ hx)
    cases hfe : fetch e with
    | transportError msg =>
      have hr := ih ep post (some msg) htail hep
      simp [tryEndpoints, hfe, hr]
    | httpResponse status decoded =>
      rw [hfe] at hev
      by_cases h200 : status = 200
      · subst h200
        cases decoded with
        | ok ps => simp [epFails] at hev
        | error msg =>
          have hr := ih ep post (some msg) htail hep
          simp [tryEndpoints, hfe, hr]
      · have hr := ih ep post
          (some ("endpoint " ++ e ++ " returned status " ++ toString status))
          htail hep
        simp [tryEndpoints, hfe, h200, hr]

theorem tryEndpoints_allFail (fetch : String → EndpointResult) :
    ∀ (eps : List String) (lastErr : Option String),
      (∀ e ∈ eps, epFails (fetch e) = true) →
      tryEndpoints fetch eps lastErr =
        (.error ("all endpoints failed, last error: " ++
          lastFailureMsg fetch eps lastErr), eps) := by
  intro eps
  induction eps with
  | nil => intro lastErr _; rfl
  | cons e es ih =>
    intro lastErr hfail
    have hev : epFails (fetch e) = true := hfail e (List.mem_cons_self e _)
    have htail : ∀ x ∈ es, epFails (fetch x) = true :=
      fun x hx => hfail x (List.mem_cons_of_mem _ hx)
    cases hfe : fetch e with
    | transportError msg =>
      have hr := ih (some msg) htail
      simp [tryEndpoints, lastFailureMsg, hfe, hr, epFailMsg]
    | httpResponse status decoded =>
      rw [hfe] at hev
      by_cases h200 : status = 200
      · subst h200
        cases decoded with
        | ok ps => simp [epFails] at hev
        | error msg =>
          have hr := ih (some msg) htail
          simp [tryEndpoints, lastFailureMsg, hfe, hr, epFailMsg]
      · have hr := ih
          (some ("endpoint " ++ e ++ " returned status " ++ toString status)) htail
        simp [tryEndpoints, lastFailureMsg, hfe, h200, hr, epFailMsg]

/-- C5: the inventory reader probes the fixed candidate list in order
and returns the first decodable 200 without attempting later
candidates; when every candidate fails, the returned error wraps only
the failure recorded for the last candidate. -/
theorem claim_C5 :
    (∀ (fetch : String → EndpointResult) projects pre ep post,
      endpoints = pre ++ ep :: post →
      (∀ e ∈ pre, epFails (fetch e) = true) →
      fetch ep = .httpResponse 200 (.ok projects) →
      getDokployProjects fetch = (.ok projects, pre ++ [ep])) ∧
    (∀ (fetch : String → EndpointResult),
      (∀ e ∈ endpoints, epFails (fetch e) = true) →
      getDokployProjects fetch =
        (.error ("all endpoints failed, last error: " ++
          epFailMsg "/api/applications" (fetch "/api/applications")),
         endpoints)) := by
  constructor
  · intro fetch projects pre ep post hsplit hfail hep
    unfold getDokployProjects
    rw [hsplit]
    exact tryEndpoints_firstSuccess fetch projects pre ep post none hfail hep
  · intro fetch hfail
    unfold getDokployProjects
    rw [tryEndpoints_allFail fetch endpoints none hfail]
    rfl

/-- Witness for C5: under `fetchFallback` the reader returns the second
candidate's inventory having attempted only the first two candidates. -/
theorem claim_C5_witness :
    getDokployProjects fetchFallback =
      (.ok [], ["/api/projects", "/api/project/all"]) := by
  have h := claim_C5.1 fetchFallback [] ["/api/projects"] "/api/project/all"
    ["/api/project", "/api/applications"] rfl
    (by
      intro e he
      simp only [List.mem_singleton] at he
      subst he
      rfl)
    rfl
  exact h

theorem processAppDomain_skip (cfg : Config) (ledger : List String)
    (publish : PangolinBlueprint → Int → Option String)
    (app : DokployApp) (domain : DokployDomain)
    (hf : cfg.ForceSync = false)
    (hmem : generateResourceName app.Name domain.Host ∈ ledger) :
    processAppDomain cfg ledger publish app domain = (none, ledger, false) := by
  unfold processAppDomain
  rw [if_pos ⟨hf, hmem⟩]

theorem processAppDomain_ledger (cfg : Config) (ledger : List String)
    (publish : PangolinBlueprint → Int → Option String)
    (app : DokployApp) (domain : DokployDomain) :
    (processAppDomain cfg ledger publish app domain).2.1 = ledger ∨
    (processAppDomain cfg ledger publish app domain).2.1 =
      generateResourceName app.Name domain.Host :: ledger := by
  simp only [processAppDomain]
  repeat' split
  all_goals first | (left; rfl) | (right; rfl)

theorem processAppDomain_published (cfg : Config) (ledger : List String)
    (publish : PangolinBlueprint → Int → Option String)
    (app : DokployApp) (domain : DokployDomain) :
    (processAppDomain cfg ledger publish app domain).2.2 = true →
    (processAppDomain cfg ledger publish app domain).2.1 =
      generateResourceName app.Name domain.Host :: ledger := by
  simp only [processAppDomain]
  repeat' split
  all_goals intro h
  all_goals first | rfl | simp at h

theorem runSteps_count_le (cfg : Config) (hf : cfg.ForceSync = false)
    (n : String) :
    ∀ (steps : List TraceStep) (ledger : List String),
      (runSteps cfg steps ledger).1.count n ≤ if n ∈ ledger then 0 else 1 := by
  intro steps
  induction steps with
  | nil =>
    intro ledger
    simp only [runSteps, List.count_nil]
    exact Nat.zero_le _
  | cons s rest ih =>
    intro ledger
    simp only [runSteps]
    have hledger := processAppDomain_ledger cfg ledger s.publish s.app s.domain
    have hpub := processAppDomain_published cfg ledger s.publish s.app s.domain
    have iht := ih (processAppDomain cfg ledger s.publish s.app s.domain).2.1
    by_cases hmem : n ∈ ledger
    · rw [if_pos hmem]
      have hmem2 : n ∈ (processAppDomain cfg ledger s.publish s.app s.domain).2.1 := by
        rcases hledger with h | h
        · rw [h]; exact hmem
        · rw [h]; exact List.mem_cons_of_mem _ hmem
      rw [if_pos hmem2] at iht
      by_cases hdid : (processAppDomain cfg ledger s.publish s.app s.domain).2.2 = true
      · by_cases heq : generateResourceName s.app.Name s.domain.Host = n
        · exfalso
          have hskip := processAppDomain_skip cfg ledger s.publish s.app s.domain hf
            (heq ▸ hmem)
          rw [hskip] at hdid
          simp at hdid
        · rw [if_pos hdid, List.count_cons]
          simp only [beq_iff_eq, heq, if_false]
          omega
      · rw [if_neg hdid]
        exact iht
    · rw [if_neg hmem]
      by_cases hdid : (processAppDomain cfg ledger s.publish s.app s.domain).2.2 = true
      · by_cases heq : generateResourceName s.app.Name s.domain.Host = n
        · rw [if_pos hdid, List.count_cons]
          have hmem2 : n ∈ (processAppDomain cfg ledger s.publish s.app s.domain).2.1 := by
            rw [hpub hdid, ← heq]
            exact List.mem_cons_self _ _
          rw [if_pos hmem2] at iht
          simp only [beq_iff_eq, heq, if_true]
          omega
        · rw [if_pos hdid, List.count_cons]
          simp only [beq_iff_eq, heq, if_false]
          have hb : (runSteps cfg rest
              (processAppDomain cfg ledger s.publish s.app s.domain).2.1).1.count n ≤ 1 := by
            split at iht <;> omega
          omega
      · rw [if_neg hdid]
        have : (runSteps cfg rest
            (processAppDomain cfg ledger s.publish s.app s.domain).2.1).1.count n ≤ 1 := by
          split at iht <;> omega
        omega

/-- C3: without the force-override flag the idempotency check refuses a
name once marked published and with the flag it always permits
publication; consequently, over any sequence of reconciliation steps
started from the empty process ledger with force sync off, any given
resource name is successfully published at most once. -/
theorem claim_C3 :
    (∀ n ledger, shouldPublish false (markPublished n ledger) n = false) ∧
    (∀ n ledger, shouldPublish true ledger n = true) ∧
    (∀ (cfg : Config) (steps : List TraceStep) (n : String),
      cfg.ForceSync = false →
      (runSteps cfg steps []).1.count n ≤ 1) := by
  refine ⟨?_, ?_, ?_⟩
  · intro n ledger
    simp [shouldPublish, markPublished]
  · intro n ledger
    simp [shouldPublish]
  · intro cfg steps n hf
    have h := runSteps_count_le cfg hf n steps []
    simpa using h

/-- Witness for C3: two identical steps over `appOne`'s binding from
the empty ledger publish its resource name at most once. -/
theorem claim_C3_witness :
    (runSteps cfg0 [stepOne, stepOne] []).1.count "web-a-example-com" ≤ 1 :=
  claim_C3.2.2 cfg0 [stepOne, stepOne] "web-a-example-com" rfl

/-- Counterexample to C6: the application named `"a."` with an
empty-host binding derives the resource name `"a--"`; when that name is
already in the ledger (here because application `"a"` with host `"-"`
published it earlier) and force sync is off, processing the empty-host
binding returns success — no empty-host error, and the binding would be
counted as processed. -/
theorem claim_C6_counterexample :
    domEmpty.Host = "" ∧
    generateResourceName "a" "-" = "a--" ∧
    processAppDomain cfg0 ["a--"] pubOk appDot domEmpty = (none, ["a--"], false) := by
  refine ⟨rfl, by decide, by rfl⟩

/-- C6 (amended): for every (application, domainBinding) pair whose
host is empty, provided the idempotency gate does not short-circuit
(force sync on, or the derived name not yet in the ledger), processing
fails with the empty-host error, the ledger is unchanged, and a pass
over a project holding only that binding reports it as errored without
aborting. -/
theorem claim_C6_amended :
    ∀ (cfg : Config) (ledger : List String)
      (publish : PangolinBlueprint → Int → Option String)
      (app : DokployApp) (domain : DokployDomain),
      domain.Host = "" →
      (cfg.ForceSync = true ∨
        generateResourceName app.Name domain.Host ∉ ledger) →
      processAppDomain cfg ledger publish app domain =
        (some "domain host is empty", ledger, false) ∧
      (∀ pid pname pdesc, app.Status = "done" → app.Domains = [domain] →
        syncApps cfg ledger publish (.ok [⟨pid, pname, pdesc, [app], []⟩]) =
          (.ok ⟨0, 0, 1⟩, ledger)) := by
  intro cfg ledger publish app domain hhost hgate
  have hneg : ¬ (cfg.ForceSync = false ∧
      generateResourceName app.Name domain.Host ∈ ledger) := by
    rcases hgate with h | h
    · intro hc
      rw [h] at hc
      exact absurd hc.1 (by simp)
    · intro hc
      exact h hc.2
  have hmain : processAppDomain cfg ledger publish app domain =
      (some "domain host is empty", ledger, false) := by
    unfold processAppDomain
    rw [if_neg hneg, if_pos hhost]
  refine ⟨hmain, ?_⟩
  intro pid pname pdesc hstatus hdoms
  unfold syncApps processProjectList processAppList
  simp only [hstatus, hdoms]
  simp only [processAppList, processDomainList, hmain]
  rfl

/-- Witness for the amended C6: processing `appDot`'s empty-host
binding against the empty ledger errors with "domain host is empty"
and a single-binding pass reports errored = 1 with the ledger
unchanged. -/
theorem claim_C6_amended_witness :
    processAppDomain cfg0 [] pubOk appDot domEmpty =
      (some "domain host is empty", [], false) ∧
    syncApps cfg0 [] pubOk (.ok [⟨"p", "proj", "", [appDot], []⟩]) =
      (.ok ⟨0, 0, 1⟩, []) := by
  have h := claim_C6_amended cfg0 [] pubOk appDot domEmpty rfl
    (Or.inr (by decide))
  exact ⟨h.1, h.2 "p" "proj" "" rfl rfl⟩

/-- C10: a binding whose derived resource name is already in the
ledger, with force sync off, is processed to success without host
validation, port resolution, or publishing — the ledger is unchanged,
no publish is recorded, and a pass over a project holding only that
binding counts it as processed, not skipped. -/
theorem claim_C10 :
    ∀ (cfg : Config) (ledger : List String)
      (publish : PangolinBlueprint → Int → Option String)
      (app : DokployApp) (domain : DokployDomain),
      cfg.ForceSync = false →
      generateResourceName app.Name domain.Host ∈ ledger →
      processAppDomain cfg ledger publish app domain = (none, ledger, false) ∧
      (∀ pid pname pdesc, app.Status = "done" → app.Domains = [domain] →
        syncApps cfg ledger publish (.ok [⟨pid, pname, pdesc, [app], []⟩]) =
          (.ok ⟨1, 0, 0⟩, ledger)) := by
  intro cfg ledger publish app domain hf hmem
  have hmain := processAppDomain_skip cfg ledger publish app domain hf hmem
  refine ⟨hmain, ?_⟩
  intro pid pname pdesc hstatus hdoms
  unfold syncApps processProjectList processAppList
  simp only [hstatus, hdoms]
  simp only [processAppList, processDomainList, hmain]
  rfl

/-- Witness for C10: with `"a--"` in the ledger, `appDot`'s empty-host
binding is processed to success and counted processed = 1. -/
theorem claim_C10_witness :
    processAppDomain cfg0 ["a--"] pubOk appDot domEmpty = (none, ["a--"], false) ∧
    syncApps cfg0 ["a--"] pubOk (.ok [⟨"p", "proj", "", [appDot], []⟩]) =
      (.ok ⟨1, 0, 0⟩, ["a--"]) := by
  have h := claim_C10 cfg0 ["a--"] pubOk appDot domEmpty rfl (by decide)
  exact ⟨h.1, h.2 "p" "proj" "" rfl rfl⟩

end DockOtter
